import Mathlib

/-!
# http-echo: request handling and shutdown lifecycle

A shallow embedding of `main.go` (package `main`): the flag state read by
`main`, the route table it builds, the two terminal handlers `httpEcho` and
`httpHealth`, and the foreground path of `main` up to the process exit.

The Go standard library and the Prometheus client are not part of the
repository; the few operations of theirs that `main.go` calls are given small
functional models next to the place where they are used.

A Go string is a sequence of bytes. It is embedded as the `String` that has one
character per byte, the character whose code is that byte; so `length` counts bytes,
`++` concatenates bytes, and a string such as "\xff" stands for the single byte 0xFF,
which is not valid UTF-8.
-/

set_option autoImplicit false

namespace HttpEcho

/-! ## Durations (`time.Duration` is a signed 64-bit count of nanoseconds) -/

/-- Two's-complement wrap of an integer into the `int64` range. -/
def wrapInt64 (x : Int) : Int := (x + 2 ^ 63) % 2 ^ 64 - 2 ^ 63

/-- The constant `time.Millisecond`, in nanoseconds. -/
def Millisecond : Int := 1000000

/-- The constant `time.Second`, in nanoseconds. -/
def Second : Int := 1000 * Millisecond

/-- Multiplication of two `time.Duration` values (`int64`, wrapping). -/
def durationMul (a b : Int) : Int := wrapInt64 (a * b)

/-! ## Flag state -/

/-- The package-level flag variables of `main.go` after `flag.Parse()` has
returned: `listenFlag`, `versionFlag`, `serverId`, `delay`, together with the
remaining positional arguments `flag.Args()`. -/
structure FlagSet where
  listenFlag : String
  versionFlag : Bool
  serverId : String
  delay : Int
  args : List String
  deriving DecidableEq, Repr

/-- The flag defaults declared in the `var` block of `main.go`. -/
def defaultFlags : FlagSet :=
  { listenFlag := ":5678", versionFlag := false, serverId := "1", delay := 0, args := [] }

/-! ## UTF-8 validity (`utf8.ValidString`) -/

/-- State of the UTF-8 scan: how many continuation bytes are still due, and the range
the next one has to lie in. -/
structure Utf8State where
  due : Nat
  lo : Nat
  hi : Nat
  deriving DecidableEq, Repr

/-- One byte of the scan; `none` once the bytes are known not to be UTF-8. The ranges
are those of the Go package `unicode/utf8`: no overlong forms, no surrogates, nothing
above U+10FFFF. -/
def utf8Step (st : Option Utf8State) (b : Nat) : Option Utf8State :=
  match st with
  | none => none
  | some s =>
    if s.due = 0 then
      if b < 0x80 then some { due := 0, lo := 0x80, hi := 0xBF }
      else if 0xC2 ≤ b ∧ b ≤ 0xDF then some { due := 1, lo := 0x80, hi := 0xBF }
      else if b = 0xE0 then some { due := 2, lo := 0xA0, hi := 0xBF }
      else if b = 0xED then some { due := 2, lo := 0x80, hi := 0x9F }
      else if 0xE1 ≤ b ∧ b ≤ 0xEF then some { due := 2, lo := 0x80, hi := 0xBF }
      else if b = 0xF0 then some { due := 3, lo := 0x90, hi := 0xBF }
      else if 0xF1 ≤ b ∧ b ≤ 0xF3 then some { due := 3, lo := 0x80, hi := 0xBF }
      else if b = 0xF4 then some { due := 3, lo := 0x80, hi := 0x8F }
      else none
    else if s.lo ≤ b ∧ b ≤ s.hi then some { due := s.due - 1, lo := 0x80, hi := 0xBF }
    else none

/-- Whether a sequence of bytes is valid UTF-8. -/
def validUTF8 (bytes : List Nat) : Bool :=
  match bytes.foldl utf8Step (some { due := 0, lo := 0x80, hi := 0xBF }) with
  | some s => s.due = 0
  | none => false

/-- The function `utf8.ValidString` on an embedded Go string. -/
def validString (s : String) : Bool := validUTF8 (s.data.map Char.toNat)

/-! ## The metrics registry (`reqsCounter`, a `CounterVec` labelled by `server_id`) -/

/-- The children of the counter vector: one count per label value, created on
first use. -/
abbrev CounterVec := List (String × Nat)

/-- Current value of the child with the given label (0 when it does not exist). -/
def CounterVec.value : CounterVec → String → Nat
  | [], _ => 0
  | (l, n) :: rest, label => if l = label then n else CounterVec.value rest label

/-- The call `reqsCounter.WithLabelValues(label).Inc()` for a label value the vector
accepts: the child is created at 0 when absent and then incremented by one. -/
def CounterVec.inc : CounterVec → String → CounterVec
  | [], label => [(label, 1)]
  | (l, n) :: rest, label =>
    if l = label then (l, n + 1) :: rest else (l, n) :: CounterVec.inc rest label

/-! ## Requests and response writers -/

/-- The parts of an `*http.Request` that the program or the mux can look at. -/
structure Request where
  method : String
  path : String
  proto : String
  remoteAddr : String
  header : List (String × String)
  body : String
  time : Nat
  deriving DecidableEq, Repr

/-- An `http.ResponseWriter`: the header map, the status code once the header has
been written, and the bytes written so far. -/
structure ResponseWriter where
  header : List (String × String)
  status : Option Nat
  body : String
  deriving DecidableEq, Repr

/-- A fresh response writer, as handed to the handler by the server. -/
def ResponseWriter.new : ResponseWriter := { header := [], status := none, body := "" }

/-- The call `w.Header().Set(k, v)`. -/
def ResponseWriter.setHeader (w : ResponseWriter) (k v : String) : ResponseWriter :=
  { w with header := (k, v) :: w.header.filter (fun kv => kv.1 ≠ k) }

/-- The call `w.Write(data)`: the first write sends the header with status 200 when
`WriteHeader` has not been called before. -/
def ResponseWriter.write (w : ResponseWriter) (data : String) : ResponseWriter :=
  { w with status := some (w.status.getD 200), body := w.body ++ data }

/-- The call `w.WriteHeader(code)` (the first call wins). -/
def ResponseWriter.writeHeader (w : ResponseWriter) (code : Nat) : ResponseWriter :=
  { w with status := some (w.status.getD code) }

/-- Status code of the finished response: 200 when the handler never wrote one. -/
def ResponseWriter.statusCode (w : ResponseWriter) : Nat := w.status.getD 200

/-! ## Handlers -/

/-- Observable effects of serving one request. -/
inductive Effect where
  | sleep (d : Int)
  | counterInc (label : String)
  | setHeader (k v : String)
  | write (data : String)
  | writeHeader (code : Nat)
  | accessLog (time : Nat) (remoteAddr method path proto : String)
  deriving DecidableEq, Repr

/-- The state a handler runs in: the process-wide counter vector, the response
writer of the request being served, the nanoseconds this request has been suspended,
the effects performed so far, oldest first, and whether the handler has panicked (the
server then drops the connection and no response is sent). -/
structure Exec where
  reqsCounter : CounterVec
  w : ResponseWriter
  elapsed : Int
  trace : List Effect
  panicked : Bool
  deriving DecidableEq, Repr

/-- Start of the handling of one request. -/
def Exec.start (c : CounterVec) : Exec :=
  { reqsCounter := c, w := ResponseWriter.new, elapsed := 0, trace := [], panicked := false }

/-- Performing one effect: it acts on the state and is recorded in the trace.
`time.Sleep(d)` returns at once when `d` is negative or zero. -/
def Exec.perform (e : Exec) (eff : Effect) : Exec :=
  let e := { e with trace := e.trace ++ [eff] }
  match eff with
  | .sleep d => { e with elapsed := e.elapsed + max d 0 }
  | .counterInc label => { e with reqsCounter := e.reqsCounter.inc label }
  | .setHeader k v => { e with w := e.w.setHeader k v }
  | .write data => { e with w := e.w.write data }
  | .writeHeader code => { e with w := e.w.writeHeader code }
  | .accessLog _ _ _ _ _ => e

/-- The call `fmt.Fprintln(w, s)` with a single string operand: one write of the
operand followed by a newline. -/
def fprintln (e : Exec) (s : String) : Exec := e.perform (.write (s ++ "\n"))

/-- What the program takes from outside `main.go`: the response headers set by
`withAppHeaders`, the text rendering of the metrics registry, and the constant
`version.HumanVersion`. -/
structure Externals where
  appHeaders : List (String × String)
  render : CounterVec → String
  humanVersion : String

/-- The handler values that `main` builds and the mux can return. -/
inductive Handler where
  | httpEcho (v : String)
  | httpHealth
  | withAppHeaders (h : Handler)
  | httpLog (h : Handler)
  | promhttpHandler
  | redirectHandler (url : String) (code : Nat)
  | notFoundHandler
  deriving DecidableEq, Repr

/-- The closure returned by `httpEcho(v)`: sleep, increment, print.
`WithLabelValues` panics on a label value that is not valid UTF-8, and then neither the
increment nor the print is reached. -/
def httpEcho (fl : FlagSet) (v : String) (_r : Request) (e : Exec) : Exec :=
  let e := e.perform (.sleep (durationMul fl.delay Millisecond))
  if validString fl.serverId then
    let e := e.perform (.counterInc fl.serverId)
    fprintln e v
  else { e with panicked := true }

/-- The closure returned by `httpHealth()`: print the fixed JSON text. -/
def httpHealth (_r : Request) (e : Exec) : Exec :=
  fprintln e "\x7b\"status\":\"ok\"\x7d"

/-- Modelled from the spec: the body of `withAppHeaders` (Header Injection) is not in
`main.go`. It sets a fixed set of response headers before delegating to the wrapped
handler. This is the header-setting part; delegation is in `Handler.serve`. -/
def withAppHeaders (ext : Externals) (e : Exec) : Exec :=
  ext.appHeaders.foldl (fun e kv => e.perform (.setHeader kv.1 kv.2)) e

/-- Modelled from the spec: the body of `httpLog` (Access Logging) is not in `main.go`.
Before delegating it emits a log record with timestamp, remote address, method, path
and protocol version. This is the logging part; delegation is in `Handler.serve`. -/
def httpLog (r : Request) (e : Exec) : Exec :=
  e.perform (.accessLog r.time r.remoteAddr r.method r.path r.proto)

/-- The handler returned by `promhttp.Handler()`: writes the text dump of the registry
and changes no counter. -/
def promhttpHandler (ext : Externals) (e : Exec) : Exec :=
  e.perform (.write (ext.render e.reqsCounter))

/-- The handler `http.RedirectHandler(url, code)`: a `Location` header and the status
code (the short HTML body it adds for GET is left out). -/
def redirectHandler (url : String) (code : Nat) (e : Exec) : Exec :=
  (e.perform (.setHeader "Location" url)).perform (.writeHeader code)

/-- The handler `http.NotFoundHandler()`: status 404 with the fixed text. -/
def notFoundHandler (e : Exec) : Exec :=
  fprintln (e.perform (.writeHeader 404)) "404 page not found"

/-- Calling a handler value: `h.ServeHTTP(w, r)`. -/
def Handler.serve (fl : FlagSet) (ext : Externals) : Handler → Request → Exec → Exec
  | .httpEcho v, r, e => HttpEcho.httpEcho fl v r e
  | .httpHealth, r, e => HttpEcho.httpHealth r e
  | .withAppHeaders h, r, e => Handler.serve fl ext h r (HttpEcho.withAppHeaders ext e)
  | .httpLog h, r, e => Handler.serve fl ext h r (HttpEcho.httpLog r e)
  | .promhttpHandler, _, e => HttpEcho.promhttpHandler ext e
  | .redirectHandler url code, _, e => HttpEcho.redirectHandler url code e
  | .notFoundHandler, _, e => HttpEcho.notFoundHandler e

/-! ## The request multiplexer (`http.ServeMux`) -/

/-- The test `strings.HasPrefix(s, pre)`, on the characters of both strings. -/
def hasPrefixChars : List Char → List Char → Bool
  | _, [] => true
  | [], _ :: _ => false
  | c :: cs, d :: ds => c = d && hasPrefixChars cs ds

/-- The test `strings.HasPrefix(s, pre)`. -/
def hasPrefix (s pre : String) : Bool := hasPrefixChars s.data pre.data

/-- The elements of a path: the pieces between slashes. -/
def splitSlash : List Char → List (List Char)
  | [] => [[]]
  | c :: cs =>
    if c = '/' then [] :: splitSlash cs
    else match splitSlash cs with
      | [] => [[c]]
      | s :: ss => (c :: s) :: ss

/-- One element of the path met by `path.Clean` on a rooted path: empty and `.`
elements are dropped, `..` removes the element before it (and is dropped at the
root), any other element is kept. -/
def cleanStep (kept : List (List Char)) (el : List Char) : List (List Char) :=
  if el = [] ∨ el = ['.'] then kept
  else if el = ['.', '.'] then kept.dropLast
  else kept ++ [el]

/-- The function `path.Clean` on a rooted path (`cleanPath` calls it on no other):
the kept elements joined by single slashes behind the leading slash. -/
def pathClean (p : List Char) : List Char :=
  '/' :: List.intercalate ['/'] ((splitSlash p).foldl cleanStep [])

/-- The function `cleanPath` of `net/http`: the canonical form of a request path,
which keeps a trailing slash. -/
def cleanPath (p : String) : String :=
  if p = "" then "/"
  else
    let p := if p.data.head? = some '/' then p else "/" ++ p
    let np := String.mk (pathClean p.data)
    if p.data.getLast? = some '/' ∧ np ≠ "/" then
      if p.length = np.length + 1 ∧ hasPrefix p np then p else np ++ "/"
    else np

/-- A `ServeMux`: the registered patterns with their handlers. -/
abbrev ServeMux := List (String × Handler)

/-- The longest entry of a list of mux entries. -/
def longestPattern : List (String × Handler) → Option (String × Handler)
  | [] => none
  | e :: es =>
    match longestPattern es with
    | none => some e
    | some b => if e.1.length < b.1.length then some b else some e

/-- The method `ServeMux.match`: an exact match first, then the longest registered
pattern that ends in a slash and is an initial part of the path. -/
def ServeMux.match (mux : ServeMux) (path : String) : Option Handler :=
  match mux.find? (fun e => e.1 = path) with
  | some e => some e.2
  | none =>
    (longestPattern
      (mux.filter (fun e => e.1.data.getLast? = some '/' && hasPrefix path e.1))).map (·.2)

/-- The method `ServeMux.handler` for a mux without host-specific patterns: the
matched handler, or `NotFoundHandler()`. -/
def ServeMux.handler (mux : ServeMux) (path : String) : Handler :=
  (mux.match path).getD Handler.notFoundHandler

/-- The method `ServeMux.shouldRedirectRLocked` for a mux without host-specific
patterns: the path is not registered but the path with a slash appended is. -/
def ServeMux.shouldRedirect (mux : ServeMux) (path : String) : Bool :=
  if mux.any (fun e => e.1 = path) then false
  else if path = "" then false
  else if mux.any (fun e => e.1 = path ++ "/") then path.data.getLast? ≠ some '/'
  else false

/-- The method `ServeMux.Handler`: CONNECT requests are matched as they are; every
other request is matched on its cleaned path, and answered by a permanent redirect
when cleaning changed the path. (The redirect target is the path; query string and
escaping are left out.) -/
def ServeMux.Handler (mux : ServeMux) (r : Request) : Handler :=
  if r.method = "CONNECT" then
    if mux.shouldRedirect r.path then Handler.redirectHandler (r.path ++ "/") 301
    else mux.handler r.path
  else
    let path := cleanPath r.path
    if mux.shouldRedirect path then Handler.redirectHandler (path ++ "/") 301
    else if path ≠ r.path then Handler.redirectHandler path 301
    else mux.handler r.path

/-- The method `ServeMux.ServeHTTP`: the request target `*` (the only one parsed
into the path `*`) is answered with status 400, with `Connection: close` from
HTTP/1.1 on; any other request goes to the handler chosen by `ServeMux.Handler`. -/
def ServeMux.ServeHTTP (fl : FlagSet) (ext : Externals) (mux : ServeMux)
    (r : Request) (e : Exec) : Exec :=
  if r.path = "*" then
    let e := if r.proto = "HTTP/1.0" then e else e.perform (.setHeader "Connection" "close")
    e.perform (.writeHeader 400)
  else (mux.Handler r).serve fl ext r e

/-! ## The route table built by `main` -/

/-- The call `fmt.Sprintf("Port: %s, id: %s", a, b)` with two string operands. -/
def sprintfPortId (a b : String) : String := "Port: " ++ a ++ ", id: " ++ b

/-- The three registrations made by `main`, in source order. -/
def routes (fl : FlagSet) : ServeMux :=
  [ ("/", Handler.httpLog
      (Handler.withAppHeaders (Handler.httpEcho (sprintfPortId fl.listenFlag fl.serverId)))),
    ("/health", Handler.withAppHeaders Handler.httpHealth),
    ("/metrics", Handler.promhttpHandler) ]

/-- The server handling one request: a fresh response writer, dispatch through the
mux built by `main`. -/
def serveRequest (fl : FlagSet) (ext : Externals) (c : CounterVec) (r : Request) : Exec :=
  ServeMux.ServeHTTP fl ext (routes fl) r (Exec.start c)

/-- The counter vector after the server has handled a sequence of requests. -/
def serveAll (fl : FlagSet) (ext : Externals) (c : CounterVec) : List Request → CounterVec
  | [] => c
  | r :: rs => serveAll fl ext (serveRequest fl ext c r).reqsCounter rs

/-- A request with the given method and path, everything else fixed. -/
def mkRequest (method path : String) : Request :=
  { method := method, path := path, proto := "HTTP/1.1", remoteAddr := "127.0.0.1:40000",
    header := [], body := "", time := 0 }

/-- Sample values for what lies outside `main.go`. -/
def sampleExt : Externals :=
  { appHeaders := [("X-App-Name", "http-echo"), ("X-App-Version", "0.2.4")],
    render := fun c => String.join (c.map (fun kv =>
      "reqs_count\x7bserver_id=\"" ++ kv.1 ++ "\"\x7d " ++ toString kv.2 ++ "\n")),
    humanVersion := "http-echo v0.2.4" }

/-! ## The process: `main` -/

/-- What happens around the process while `main` runs: whether
`server.ListenAndServe()` comes back with an error other than `ErrServerClosed`
before any interrupt (bind failure, listener failure), whether an interrupt is ever
delivered, and the error returned by `server.Shutdown(ctx)` (`none` for `nil`). -/
structure Env where
  serveErr : Option String
  interrupt : Bool
  shutdownErr : Option String
  deriving DecidableEq, Repr

/-- The steps of `main` that are visible from outside, in program order. -/
inductive MainEvent where
  | fprintlnStderr (s : String)
  | newServeMux
  | handle (pattern : String) (h : Handler)
  | newServer (addr : String)
  | goListenAndServe
  | listenAndServe
  | logPrintf (msg : String)
  | signalNotify
  | contextWithTimeout (d : Int)
  | shutdown (deadline : Int)
  | logFatalf (msg : String)
  | exit (code : Nat)
  deriving DecidableEq, Repr

/-- A run of the process: the steps of the main goroutine (`goListenAndServe` is the
`go` statement), the steps of the goroutine it starts, and the exit status (`none`
while the process keeps running, waiting for an interrupt). -/
structure Run where
  foreground : List MainEvent
  background : List MainEvent
  exitCode : Option Nat
  deriving DecidableEq, Repr

/-- The message `server.Shutdown` returns when the context deadline passes first:
`context.DeadlineExceeded.Error()`. -/
def deadlineExceeded : String := "context deadline exceeded"

/-- The function `main` from the point where `flag.Parse()` has returned.
`log.Fatalf` prints and then calls `os.Exit(1)`. -/
def main (ext : Externals) (fl : FlagSet) (env : Env) : Run :=
  if fl.versionFlag then
    { foreground := [.fprintlnStderr ext.humanVersion, .exit 0], background := [],
      exitCode := some 0 }
  else if fl.args.length > 0 then
    { foreground := [.fprintlnStderr "Too many arguments!", .exit 127], background := [],
      exitCode := some 127 }
  else
    let setup : List MainEvent :=
      [.newServeMux] ++ (routes fl).map (fun e => MainEvent.handle e.1 e.2) ++
      [.newServer fl.listenFlag, .goListenAndServe, .signalNotify]
    let listening : List MainEvent :=
      [.logPrintf ("[INFO] server is listening on " ++ fl.listenFlag ++ "\n"), .listenAndServe]
    match env.serveErr with
    | some err =>
      { foreground := setup,
        background := listening ++ [.logFatalf ("[ERR] server exited with: " ++ err), .exit 1],
        exitCode := some 1 }
    | none =>
      if env.interrupt then
        let stop : List MainEvent :=
          [.logPrintf "[INFO] received interrupt, shutting down...",
           .contextWithTimeout (durationMul 5 Second), .shutdown (durationMul 5 Second)]
        match env.shutdownErr with
        | some err =>
          { foreground := setup ++ stop ++
              [.logFatalf ("[ERR] failed to shutdown server: " ++ err), .exit 1],
            background := listening, exitCode := some 1 }
        | none =>
          { foreground := setup ++ stop ++ [.exit 2], background := listening,
            exitCode := some 2 }
      else
        { foreground := setup, background := listening, exitCode := none }

/-- How the call `flag.Parse()` at the top of `main` ends. The command-line flag set is
created with `flag.ExitOnError`: on a command line it rejects (an undefined flag, a
malformed value, a request for help) the flag package itself ends the process with the
given status; otherwise it returns with the flag variables set. -/
inductive ParseOutcome where
  | returned (fl : FlagSet)
  | exited (code : Nat)
  deriving DecidableEq, Repr

/-- The whole of `main`, `flag.Parse()` included. (What the flag package prints before
it ends the process is not recorded.) -/
def runMain (ext : Externals) (parsed : ParseOutcome) (env : Env) : Run :=
  match parsed with
  | .exited code => { foreground := [.exit code], background := [], exitCode := some code }
  | .returned fl => main ext fl env

/-- Whether a step constructs or starts the HTTP server. -/
def MainEvent.isServerStep : MainEvent → Bool
  | .newServeMux => true
  | .handle _ _ => true
  | .newServer _ => true
  | .goListenAndServe => true
  | _ => false

/-- Whether a step is a call of `server.Shutdown`. -/
def MainEvent.isShutdown : MainEvent → Bool
  | .shutdown _ => true
  | _ => false

/-- The handler chain registered on the pattern "/". -/
def echoChain (fl : FlagSet) : Handler :=
  Handler.httpLog
    (Handler.withAppHeaders (Handler.httpEcho (sprintfPortId fl.listenFlag fl.serverId)))

/-- The handler chain registered on the pattern "/health". -/
def healthChain : Handler := Handler.withAppHeaders Handler.httpHealth

/-- Whether the server hands the request to the echo chain. -/
def reachesEcho (fl : FlagSet) (r : Request) : Bool :=
  r.path ≠ "*" && decide (ServeMux.Handler (routes fl) r = echoChain fl)

/-- Whether the request is counted: the server hands it to the echo chain and the
configured identity is accepted as a label value. -/
def counted (fl : FlagSet) (r : Request) : Bool :=
  reachesEcho fl r && validString fl.serverId

/-- The two wrappers of the middleware chain. -/
inductive Wrapper where
  | accessLogging
  | headerInjection
  deriving DecidableEq, Repr

/-- The wrappers applied around a handler value, outermost first. -/
def Handler.wrappers : Handler → List Wrapper
  | .httpLog h => Wrapper.accessLogging :: h.wrappers
  | .withAppHeaders h => Wrapper.headerInjection :: h.wrappers
  | _ => []

/-- The terminal handler inside the wrappers. -/
def Handler.terminal : Handler → Handler
  | .httpLog h => h.terminal
  | .withAppHeaders h => h.terminal
  | h => h

/-- The handler registered in a mux under exactly the given pattern. -/
def ServeMux.registered (mux : ServeMux) (pattern : String) : Option HttpEcho.Handler :=
  (mux.find? (fun e => e.1 = pattern)).map (·.2)

/-- Whether an effect is a suspension. -/
def Effect.isSleep : Effect → Bool
  | .sleep _ => true
  | _ => false

/-- Whether an effect is an access-log record. -/
def Effect.isAccessLog : Effect → Bool
  | .accessLog _ _ _ _ _ => true
  | _ => false

/-- The patterns and handlers that a run of `main` registers, in order. -/
def registrations : List MainEvent → List (String × Handler)
  | [] => []
  | .handle p h :: rest => (p, h) :: registrations rest
  | _ :: rest => registrations rest

/-! ## Lemmas: header injection leaves everything but the header map alone -/

theorem foldl_setHeader_fields (hs : List (String × String)) (e : Exec) :
    (hs.foldl (fun e kv => e.perform (.setHeader kv.1 kv.2)) e).reqsCounter = e.reqsCounter ∧
    (hs.foldl (fun e kv => e.perform (.setHeader kv.1 kv.2)) e).elapsed = e.elapsed ∧
    (hs.foldl (fun e kv => e.perform (.setHeader kv.1 kv.2)) e).w.status = e.w.status ∧
    (hs.foldl (fun e kv => e.perform (.setHeader kv.1 kv.2)) e).w.body = e.w.body ∧
    (hs.foldl (fun e kv => e.perform (.setHeader kv.1 kv.2)) e).trace =
      e.trace ++ hs.map (fun kv => Effect.setHeader kv.1 kv.2) := by
  induction hs generalizing e with
  | nil => simp
  | cons kv rest ih =>
    obtain ⟨h1, h2, h3, h4, h5⟩ := ih (e.perform (.setHeader kv.1 kv.2))
    simp only [List.foldl_cons, List.map_cons]
    refine ⟨h1.trans ?_, h2.trans ?_, h3.trans ?_, h4.trans ?_, h5.trans ?_⟩ <;>
      simp [Exec.perform, ResponseWriter.setHeader]

theorem foldl_setHeader_panicked (hs : List (String × String)) (e : Exec) :
    (hs.foldl (fun e kv => e.perform (.setHeader kv.1 kv.2)) e).panicked = e.panicked := by
  induction hs generalizing e with
  | nil => simp
  | cons kv rest ih =>
    simp only [List.foldl_cons]
    rw [ih]
    simp [Exec.perform]

theorem withAppHeaders_panicked (ext : Externals) (e : Exec) :
    (withAppHeaders ext e).panicked = e.panicked :=
  foldl_setHeader_panicked ext.appHeaders e

theorem withAppHeaders_reqsCounter (ext : Externals) (e : Exec) :
    (withAppHeaders ext e).reqsCounter = e.reqsCounter :=
  (foldl_setHeader_fields ext.appHeaders e).1

theorem withAppHeaders_elapsed (ext : Externals) (e : Exec) :
    (withAppHeaders ext e).elapsed = e.elapsed :=
  (foldl_setHeader_fields ext.appHeaders e).2.1

theorem withAppHeaders_status (ext : Externals) (e : Exec) :
    (withAppHeaders ext e).w.status = e.w.status :=
  (foldl_setHeader_fields ext.appHeaders e).2.2.1

theorem withAppHeaders_body (ext : Externals) (e : Exec) :
    (withAppHeaders ext e).w.body = e.w.body :=
  (foldl_setHeader_fields ext.appHeaders e).2.2.2.1

theorem withAppHeaders_trace (ext : Externals) (e : Exec) :
    (withAppHeaders ext e).trace =
      e.trace ++ ext.appHeaders.map (fun kv => Effect.setHeader kv.1 kv.2) :=
  (foldl_setHeader_fields ext.appHeaders e).2.2.2.2

/-! ## Lemmas: dispatch through the route table -/

theorem cleanPath_head (p : String) : (cleanPath p).data.head? = some '/' := by
  unfold cleanPath
  by_cases h0 : p = ""
  · simp [h0]
  · simp only [h0, if_false]
    by_cases h1 : p.data.head? = some '/'
    · simp only [h1, if_true]
      split
      · split
        · exact h1
        · simp [pathClean]
      · simp [pathClean]
    · simp only [h1, if_false]
      split
      · split
        · simp
        · simp [pathClean]
      · simp [pathClean]

theorem canonical_head {p : String} (h : cleanPath p = p) : p.data.head? = some '/' := by
  have := cleanPath_head p
  rwa [h] at this

theorem hasPrefix_slash {p : String} (h : p.data.head? = some '/') : hasPrefix p "/" = true := by
  unfold hasPrefix
  cases hp : p.data with
  | nil => simp [hp] at h
  | cons c cs =>
    simp [hp] at h
    simp [hasPrefixChars, h]

theorem append_slash_last (p : String) : (p ++ "/").data.getLast? = some '/' := by
  simp [String.data_append]

theorem shouldRedirect_routes (fl : FlagSet) (p : String) :
    ServeMux.shouldRedirect (routes fl) p = false := by
  unfold ServeMux.shouldRedirect
  split
  · rfl
  · split
    · rfl
    · rename_i h1 h2
      split
      · rename_i h3
        exfalso
        simp only [routes, List.any_cons, List.any_nil, Bool.or_false, Bool.or_eq_true,
          decide_eq_true_eq] at h3
        have hl := append_slash_last p
        rcases h3 with h3 | h3 | h3
        · apply h2
          have : p.data ++ ['/'] = ['/'] := by
            have := congrArg String.data h3
            simpa [String.data_append] using this.symm
          cases hp : p.data with
          | nil => exact String.ext hp
          | cons c cs => rw [hp] at this; simp at this
        · rw [← h3] at hl; revert hl; decide
        · rw [← h3] at hl; revert hl; decide
      · rfl

theorem handler_routes_catchall (fl : FlagSet) {p : String} (hh : p.data.head? = some '/')
    (h1 : p ≠ "/health") (h2 : p ≠ "/metrics") :
    ServeMux.handler (routes fl) p = echoChain fl := by
  have hp := hasPrefix_slash hh
  unfold ServeMux.handler ServeMux.match
  by_cases h0 : p = "/"
  · subst h0; rfl
  · have e0 : ("/" : String) ≠ p := fun h => h0 h.symm
    have e1 : ("/health" : String) ≠ p := fun h => h1 h.symm
    have e2 : ("/metrics" : String) ≠ p := fun h => h2 h.symm
    simp [routes, List.find?, e0, e1, e2, List.filter, hp, longestPattern, echoChain]

theorem handler_routes_health (fl : FlagSet) :
    ServeMux.handler (routes fl) "/health" = healthChain := rfl

theorem handler_routes_metrics (fl : FlagSet) :
    ServeMux.handler (routes fl) "/metrics" = Handler.promhttpHandler := rfl

/-- Every path is matched to one of the three registered chains or to the not-found
handler. -/
theorem handler_routes_cases (fl : FlagSet) (p : String) :
    ServeMux.handler (routes fl) p = echoChain fl ∨
    ServeMux.handler (routes fl) p = healthChain ∨
    ServeMux.handler (routes fl) p = Handler.promhttpHandler ∨
    ServeMux.handler (routes fl) p = Handler.notFoundHandler := by
  by_cases h1 : p = "/health"
  · subst h1; exact Or.inr (Or.inl rfl)
  by_cases h2 : p = "/metrics"
  · subst h2; exact Or.inr (Or.inr (Or.inl rfl))
  by_cases hh : p.data.head? = some '/'
  · exact Or.inl (handler_routes_catchall fl hh h1 h2)
  · refine Or.inr (Or.inr (Or.inr ?_))
    have hp : hasPrefix p "/" = false := by
      unfold hasPrefix
      cases hd : p.data with
      | nil => rfl
      | cons c cs =>
        simp [hd] at hh
        simp [hasPrefixChars, hh]
    have e0 : ("/" : String) ≠ p := by
      intro h; subst h; exact hh rfl
    have e1 : ("/health" : String) ≠ p := fun h => h1 h.symm
    have e2 : ("/metrics" : String) ≠ p := fun h => h2 h.symm
    unfold ServeMux.handler ServeMux.match
    simp [routes, List.find?, e0, e1, e2, List.filter, hp, longestPattern]

theorem Handler_routes_catchall (fl : FlagSet) (r : Request) (hc : cleanPath r.path = r.path)
    (h1 : r.path ≠ "/health") (h2 : r.path ≠ "/metrics") :
    ServeMux.Handler (routes fl) r = echoChain fl := by
  have hh := canonical_head hc
  unfold ServeMux.Handler
  simp only [shouldRedirect_routes, hc, ne_eq, not_true_eq_false, if_false, Bool.false_eq_true]
  simp [handler_routes_catchall fl hh h1 h2]

theorem Handler_routes_health (fl : FlagSet) (r : Request) (h : r.path = "/health") :
    ServeMux.Handler (routes fl) r = healthChain := by
  have hc : cleanPath r.path = r.path := by rw [h]; decide
  unfold ServeMux.Handler
  simp only [shouldRedirect_routes, hc, ne_eq, not_true_eq_false, if_false, Bool.false_eq_true]
  simp [h, handler_routes_health]

/-- Every request is dispatched to one of the three registered chains, to the
not-found handler, or to a redirect. -/
theorem Handler_routes_cases (fl : FlagSet) (r : Request) :
    ServeMux.Handler (routes fl) r = echoChain fl ∨
    ServeMux.Handler (routes fl) r = healthChain ∨
    ServeMux.Handler (routes fl) r = Handler.promhttpHandler ∨
    ServeMux.Handler (routes fl) r = Handler.notFoundHandler ∨
    ∃ url, ServeMux.Handler (routes fl) r = Handler.redirectHandler url 301 := by
  unfold ServeMux.Handler
  simp only [shouldRedirect_routes, if_false, Bool.false_eq_true]
  have hcases := handler_routes_cases fl r.path
  split
  · rcases hcases with h | h | h | h <;> simp [h]
  · split
    · exact Or.inr (Or.inr (Or.inr (Or.inr ⟨_, rfl⟩)))
    · rcases hcases with h | h | h | h <;> simp [h]

/-! ## Lemmas: the counter vector -/

theorem value_inc_self (c : CounterVec) (label : String) :
    (CounterVec.inc c label).value label = c.value label + 1 := by
  induction c with
  | nil => simp [CounterVec.inc, CounterVec.value]
  | cons kv rest ih =>
    obtain ⟨l, n⟩ := kv
    by_cases h : l = label
    · simp [CounterVec.inc, CounterVec.value, h]
    · simp [CounterVec.inc, CounterVec.value, h, ih]

theorem value_inc_other (c : CounterVec) {label other : String} (h : other ≠ label) :
    (CounterVec.inc c label).value other = c.value other := by
  have h' : label ≠ other := fun e => h e.symm
  induction c with
  | nil => simp [CounterVec.inc, CounterVec.value, h']
  | cons kv rest ih =>
    obtain ⟨l, n⟩ := kv
    by_cases hl : l = label
    · subst hl
      simp [CounterVec.inc, CounterVec.value, h']
    · by_cases ho : l = other
      · subst ho
        simp [CounterVec.inc, CounterVec.value, hl]
      · simp [CounterVec.inc, CounterVec.value, hl, ho, ih]

theorem value_le_inc (c : CounterVec) (label other : String) :
    c.value other ≤ (CounterVec.inc c label).value other := by
  by_cases h : other = label
  · subst h; rw [value_inc_self]; exact Nat.le_succ _
  · rw [value_inc_other c h]

/-! ## Lemmas: what each chain does to the execution state -/

theorem serve_echoChain (fl : FlagSet) (ext : Externals) (r : Request) (e : Exec) :
    (echoChain fl).serve fl ext r e =
      httpEcho fl (sprintfPortId fl.listenFlag fl.serverId) r (withAppHeaders ext (httpLog r e)) :=
  rfl

theorem serve_healthChain (fl : FlagSet) (ext : Externals) (r : Request) (e : Exec) :
    healthChain.serve fl ext r e = httpHealth r (withAppHeaders ext e) := rfl

theorem serveRequest_of_not_star (fl : FlagSet) (ext : Externals) (c : CounterVec)
    (r : Request) (h : r.path ≠ "*") :
    serveRequest fl ext c r = (ServeMux.Handler (routes fl) r).serve fl ext r (Exec.start c) := by
  simp [serveRequest, ServeMux.ServeHTTP, h]

theorem canonical_ne_star {p : String} (hc : cleanPath p = p) : p ≠ "*" := by
  intro h
  have := canonical_head hc
  rw [h] at this
  revert this
  decide

theorem serveRequest_catchall (fl : FlagSet) (ext : Externals) (c : CounterVec) (r : Request)
    (hc : cleanPath r.path = r.path) (h1 : r.path ≠ "/health") (h2 : r.path ≠ "/metrics") :
    serveRequest fl ext c r =
      httpEcho fl (sprintfPortId fl.listenFlag fl.serverId) r
        (withAppHeaders ext (httpLog r (Exec.start c))) := by
  rw [serveRequest_of_not_star fl ext c r (canonical_ne_star hc),
    Handler_routes_catchall fl r hc h1 h2, serve_echoChain]

theorem serveRequest_health (fl : FlagSet) (ext : Externals) (c : CounterVec) (r : Request)
    (h : r.path = "/health") :
    serveRequest fl ext c r = httpHealth r (withAppHeaders ext (Exec.start c)) := by
  have hs : r.path ≠ "*" := by rw [h]; decide
  rw [serveRequest_of_not_star fl ext c r hs, Handler_routes_health fl r h, serve_healthChain]

/-- A request changes the counter vector exactly when it reaches the echo chain and
the configured identity is accepted as a label value, and then by one increment of that
identity. -/
theorem serveRequest_reqsCounter (fl : FlagSet) (ext : Externals) (c : CounterVec)
    (r : Request) :
    (serveRequest fl ext c r).reqsCounter =
      if counted fl r = true then CounterVec.inc c fl.serverId else c := by
  unfold counted
  by_cases hs : r.path = "*"
  · simp [reachesEcho, hs, serveRequest, ServeMux.ServeHTTP]
    split <;> simp [Exec.perform, Exec.start]
  · rw [serveRequest_of_not_star fl ext c r hs]
    rcases Handler_routes_cases fl r with h | h | h | h | ⟨url, h⟩
    · by_cases hv : validString fl.serverId = true
      · simp [reachesEcho, hs, h, hv, serve_echoChain, httpEcho, fprintln, Exec.perform,
          withAppHeaders_reqsCounter, httpLog, Exec.start]
      · simp [reachesEcho, hs, h, hv, serve_echoChain, httpEcho, Exec.perform,
          withAppHeaders_reqsCounter, httpLog, Exec.start]
    · have hne : healthChain ≠ echoChain fl := by simp [healthChain, echoChain]
      simp [reachesEcho, hs, h, hne, serve_healthChain, httpHealth, fprintln, Exec.perform,
        withAppHeaders_reqsCounter, Exec.start]
    · have hne : Handler.promhttpHandler ≠ echoChain fl := by simp [echoChain]
      simp [reachesEcho, hs, h, hne, Handler.serve, promhttpHandler, Exec.perform, Exec.start]
    · have hne : Handler.notFoundHandler ≠ echoChain fl := by simp [echoChain]
      simp [reachesEcho, hs, h, hne, Handler.serve, notFoundHandler, fprintln, Exec.perform,
        Exec.start]
    · have hne : Handler.redirectHandler url 301 ≠ echoChain fl := by simp [echoChain]
      simp [reachesEcho, hs, h, hne, Handler.serve, redirectHandler, Exec.perform, Exec.start]

/-- A request ends in a panic exactly when it reaches the echo chain and the configured
identity is not accepted as a label value. -/
theorem serveRequest_panicked (fl : FlagSet) (ext : Externals) (c : CounterVec)
    (r : Request) :
    (serveRequest fl ext c r).panicked = (reachesEcho fl r && !validString fl.serverId) := by
  by_cases hs : r.path = "*"
  · simp [reachesEcho, hs, serveRequest, ServeMux.ServeHTTP]
    split <;> simp [Exec.perform, Exec.start]
  · rw [serveRequest_of_not_star fl ext c r hs]
    rcases Handler_routes_cases fl r with h | h | h | h | ⟨url, h⟩
    · by_cases hv : validString fl.serverId = true
      · simp [reachesEcho, hs, h, hv, serve_echoChain, httpEcho, fprintln, Exec.perform,
          withAppHeaders_panicked, httpLog, Exec.start]
      · simp [reachesEcho, hs, h, hv, serve_echoChain, httpEcho, Exec.perform,
          withAppHeaders_panicked, httpLog, Exec.start]
    · have hne : healthChain ≠ echoChain fl := by simp [healthChain, echoChain]
      simp [reachesEcho, hs, h, hne, serve_healthChain, httpHealth, fprintln, Exec.perform,
        withAppHeaders_panicked, Exec.start]
    · have hne : Handler.promhttpHandler ≠ echoChain fl := by simp [echoChain]
      simp [reachesEcho, hs, h, hne, Handler.serve, promhttpHandler, Exec.perform, Exec.start]
    · have hne : Handler.notFoundHandler ≠ echoChain fl := by simp [echoChain]
      simp [reachesEcho, hs, h, hne, Handler.serve, notFoundHandler, fprintln, Exec.perform,
        Exec.start]
    · have hne : Handler.redirectHandler url 301 ≠ echoChain fl := by simp [echoChain]
      simp [reachesEcho, hs, h, hne, Handler.serve, redirectHandler, Exec.perform, Exec.start]

theorem reachesEcho_catchall (fl : FlagSet) (r : Request)
    (hc : cleanPath r.path = r.path) (h1 : r.path ≠ "/health") (h2 : r.path ≠ "/metrics") :
    reachesEcho fl r = true := by
  simp [reachesEcho, canonical_ne_star hc, Handler_routes_catchall fl r hc h1 h2]

theorem serveAll_value (fl : FlagSet) (ext : Externals) (c : CounterVec) (reqs : List Request) :
    (serveAll fl ext c reqs).value fl.serverId =
      c.value fl.serverId + (reqs.filter (counted fl)).length := by
  induction reqs generalizing c with
  | nil => simp [serveAll]
  | cons r rs ih =>
    rw [serveAll, ih, serveRequest_reqsCounter]
    by_cases h : counted fl r = true
    · rw [if_pos h, List.filter_cons_of_pos h, value_inc_self, List.length_cons]; omega
    · rw [if_neg h, List.filter_cons_of_neg h]

/-! ## The echo and health handlers -/

/-- C1 (as stated, refuted): with the identity "\xff" (one byte, not valid UTF-8) a
request to "/" ends in a panic inside the echo closure: nothing is written, so the
response has no status and no body. -/
theorem echo_invalid_identity_no_response :
    validString "\xff" = false ∧
    (serveRequest { defaultFlags with serverId := "\xff" } sampleExt []
      (mkRequest "GET" "/")).panicked = true ∧
    (serveRequest { defaultFlags with serverId := "\xff" } sampleExt []
      (mkRequest "GET" "/")).w.status = none ∧
    (serveRequest { defaultFlags with serverId := "\xff" } sampleExt []
      (mkRequest "GET" "/")).w.body ≠ "Port: " ++ ":5678" ++ ", id: " ++ "\xff" ++ "\n" := by
  decide

/-- C1 (amended): when the configured identity is valid UTF-8, the chain registered on
"/" is the echo chain; serving any request with it, and serving any request whose path
is "/" through the mux, ends without a panic and gives status 200 and the body
"Port: " ++ L ++ ", id: " ++ I followed by one newline, whatever the method, headers
and body of the request. The echo closure alone, on a fresh response writer, gives
status 200 and its text followed by one newline. -/
theorem echo_root_response (fl : FlagSet) (ext : Externals) (c : CounterVec) (r : Request)
    (hid : validString fl.serverId = true) :
    (∀ v : String, (httpEcho fl v r (Exec.start c)).panicked = false ∧
      (httpEcho fl v r (Exec.start c)).w.statusCode = 200 ∧
      (httpEcho fl v r (Exec.start c)).w.body = v ++ "\n") ∧
    (routes fl).registered "/" = some (echoChain fl) ∧
    ((echoChain fl).serve fl ext r (Exec.start c)).panicked = false ∧
    ((echoChain fl).serve fl ext r (Exec.start c)).w.statusCode = 200 ∧
    ((echoChain fl).serve fl ext r (Exec.start c)).w.body =
      "Port: " ++ fl.listenFlag ++ ", id: " ++ fl.serverId ++ "\n" ∧
    (serveRequest fl ext c { r with path := "/" }).panicked = false ∧
    (serveRequest fl ext c { r with path := "/" }).w.statusCode = 200 ∧
    (serveRequest fl ext c { r with path := "/" }).w.body =
      "Port: " ++ fl.listenFlag ++ ", id: " ++ fl.serverId ++ "\n" := by
  have hc : cleanPath ({ r with path := "/" } : Request).path
      = ({ r with path := "/" } : Request).path := by
    show cleanPath "/" = "/"
    decide
  have h1 : ({ r with path := "/" } : Request).path ≠ "/health" := by
    show ("/" : String) ≠ "/health"
    decide
  have h2 : ({ r with path := "/" } : Request).path ≠ "/metrics" := by
    show ("/" : String) ≠ "/metrics"
    decide
  rw [serveRequest_catchall fl ext c _ hc h1 h2, serve_echoChain]
  refine ⟨fun v => ⟨?_, ?_, ?_⟩, rfl, ?_, ?_, ?_, ?_, ?_, ?_⟩ <;>
    simp [httpEcho, hid, fprintln, Exec.perform, ResponseWriter.write,
      ResponseWriter.statusCode, withAppHeaders_body, withAppHeaders_status,
      withAppHeaders_panicked, httpLog, Exec.start, ResponseWriter.new, sprintfPortId]

/-- C1 (amended), at the default flags and a POST request. -/
theorem echo_root_response_witness :
    (serveRequest defaultFlags sampleExt [] (mkRequest "POST" "/")).w.statusCode = 200 ∧
    (serveRequest defaultFlags sampleExt [] (mkRequest "POST" "/")).w.body =
      "Port: :5678, id: 1\n" :=
  ⟨(echo_root_response defaultFlags sampleExt [] (mkRequest "POST" "/") (by decide)).2.2.2.2.2.2.1,
   (echo_root_response defaultFlags sampleExt [] (mkRequest "POST" "/") (by decide)).2.2.2.2.2.2.2⟩

/-- C3 (as stated, refuted): with the default flags, the body of the reply to
`GET /health` is not the bare 15-character JSON text. -/
theorem health_body_not_bare_json :
    (serveRequest defaultFlags sampleExt [] (mkRequest "GET" "/health")).w.body ≠
      "\x7b\"status\":\"ok\"\x7d" := by
  decide

/-- C3 (amended): every request to /health, whatever the flags, the counters and the
rest of the request, gets status 200 and a body that is the 15-character JSON text
followed by one newline, 16 characters in all. -/
theorem health_response (fl : FlagSet) (ext : Externals) (c : CounterVec) (r : Request) :
    (serveRequest fl ext c { r with path := "/health" }).w.statusCode = 200 ∧
    (serveRequest fl ext c { r with path := "/health" }).w.body =
      "\x7b\"status\":\"ok\"\x7d" ++ "\n" ∧
    (serveRequest fl ext c { r with path := "/health" }).w.body.length = 16 ∧
    ("\x7b\"status\":\"ok\"\x7d" : String).length = 15 ∧
    (httpHealth r (Exec.start c)).w.statusCode = 200 ∧
    (httpHealth r (Exec.start c)).w.body = "\x7b\"status\":\"ok\"\x7d" ++ "\n" := by
  rw [serveRequest_health fl ext c _ rfl]
  have hb : (httpHealth { r with path := "/health" } (withAppHeaders ext (Exec.start c))).w.body
      = "\x7b\"status\":\"ok\"\x7d" ++ "\n" := by
    simp [httpHealth, fprintln, Exec.perform, ResponseWriter.write, withAppHeaders_body,
      Exec.start, ResponseWriter.new]
  refine ⟨?_, hb, ?_, by decide, ?_, ?_⟩
  · simp [httpHealth, fprintln, Exec.perform, ResponseWriter.write, ResponseWriter.statusCode,
      withAppHeaders_status, Exec.start, ResponseWriter.new]
  · rw [hb]; decide
  · simp [httpHealth, fprintln, Exec.perform, ResponseWriter.write, ResponseWriter.statusCode,
      Exec.start, ResponseWriter.new]
  · simp [httpHealth, fprintln, Exec.perform, ResponseWriter.write, Exec.start,
      ResponseWriter.new]

/-- C8: a request to /health leaves the counter vector as it was and suspends for no
time: no effect in its trace is a sleep, for every counter state and delay. The health
closure alone performs one effect, a write, and changes neither counters nor time. -/
theorem health_frame (fl : FlagSet) (ext : Externals) (c : CounterVec) (r : Request) :
    (∀ e : Exec, (httpHealth r e).reqsCounter = e.reqsCounter ∧
      (httpHealth r e).elapsed = e.elapsed ∧
      (httpHealth r e).trace = e.trace ++ [Effect.write ("\x7b\"status\":\"ok\"\x7d" ++ "\n")]) ∧
    (serveRequest fl ext c { r with path := "/health" }).reqsCounter = c ∧
    (serveRequest fl ext c { r with path := "/health" }).elapsed = 0 ∧
    ∀ eff ∈ (serveRequest fl ext c { r with path := "/health" }).trace,
      eff.isSleep = false := by
  rw [serveRequest_health fl ext c _ rfl]
  refine ⟨fun e => ⟨rfl, rfl, rfl⟩, ?_, ?_, ?_⟩
  · simp [httpHealth, fprintln, Exec.perform, withAppHeaders_reqsCounter, Exec.start]
  · simp [httpHealth, fprintln, Exec.perform, withAppHeaders_elapsed, Exec.start]
  · intro eff h
    simp only [httpHealth, fprintln, Exec.perform, withAppHeaders_trace, Exec.start,
      List.nil_append, List.mem_append, List.mem_map, List.mem_singleton] at h
    rcases h with ⟨kv, _, rfl⟩ | rfl <;> rfl

/-- C9 (as stated, refuted): with `-delay 9223372036855` the product
`time.Duration(*delay) * time.Millisecond` wraps to a negative duration, so the echo
closure increments and writes after a suspension of no time at all; and with the
identity "\xff" the closure sleeps and then panics, with no increment and no write. -/
theorem echo_delay_not_elapsed :
    durationMul 9223372036855 Millisecond = -9223372036854551616 ∧
    (httpEcho { defaultFlags with delay := 9223372036855 } "x" (mkRequest "GET" "/")
      (Exec.start [])).elapsed = 0 ∧
    (httpEcho { defaultFlags with delay := 9223372036855 } "x" (mkRequest "GET" "/")
      (Exec.start [])).trace =
      [Effect.sleep (-9223372036854551616), Effect.counterInc "1", Effect.write "x\n"] ∧
    (httpEcho { defaultFlags with serverId := "\xff", delay := 200 } "x" (mkRequest "GET" "/")
      (Exec.start [])).trace = [Effect.sleep 200000000] ∧
    (httpEcho { defaultFlags with serverId := "\xff", delay := 200 } "x" (mkRequest "GET" "/")
      (Exec.start [])).panicked = true := by
  decide

/-- C9 (amended): when the configured identity is valid UTF-8 and the delay is between
0 and 9223372036854 ms, the echo closure performs exactly three effects, in this order:
a sleep of exactly `delay` milliseconds (`delay * 1000000` ns), one increment of the
counter of the configured identity, one write of the text and a newline; it has then
been suspended for exactly that time and has not panicked. Through the mux, only the
access-log record and the header settings come before these three. -/
theorem echo_effect_order (fl : FlagSet) (ext : Externals) (c : CounterVec) (v : String)
    (r : Request) (e : Exec) (hid : validString fl.serverId = true)
    (h0 : 0 ≤ fl.delay) (h1 : fl.delay ≤ 9223372036854) :
    durationMul fl.delay Millisecond = fl.delay * 1000000 ∧
    (httpEcho fl v r e).trace =
      e.trace ++ [Effect.sleep (fl.delay * 1000000),
        Effect.counterInc fl.serverId, Effect.write (v ++ "\n")] ∧
    (httpEcho fl v r e).elapsed = e.elapsed + fl.delay * 1000000 ∧
    (httpEcho fl v r e).panicked = e.panicked ∧
    (serveRequest fl ext c { r with path := "/" }).trace =
      Effect.accessLog r.time r.remoteAddr r.method "/" r.proto ::
        ext.appHeaders.map (fun kv => Effect.setHeader kv.1 kv.2) ++
      [Effect.sleep (fl.delay * 1000000), Effect.counterInc fl.serverId,
        Effect.write ("Port: " ++ fl.listenFlag ++ ", id: " ++ fl.serverId ++ "\n")] ∧
    (serveRequest fl ext c { r with path := "/" }).elapsed = fl.delay * 1000000 := by
  have hd : durationMul fl.delay Millisecond = fl.delay * 1000000 := by
    unfold durationMul wrapInt64 Millisecond
    omega
  have hpos : max (fl.delay * 1000000) 0 = fl.delay * 1000000 := by
    apply max_eq_left
    omega
  have hc : cleanPath ({ r with path := "/" } : Request).path
      = ({ r with path := "/" } : Request).path := by
    show cleanPath "/" = "/"
    decide
  have hr1 : ({ r with path := "/" } : Request).path ≠ "/health" := by
    show ("/" : String) ≠ "/health"
    decide
  have hr2 : ({ r with path := "/" } : Request).path ≠ "/metrics" := by
    show ("/" : String) ≠ "/metrics"
    decide
  rw [serveRequest_catchall fl ext c _ hc hr1 hr2]
  refine ⟨hd, ?_, ?_, ?_, ?_, ?_⟩
  · simp [httpEcho, hid, hd, fprintln, Exec.perform]
  · simp [httpEcho, hid, hd, hpos, fprintln, Exec.perform]
  · simp [httpEcho, hid, fprintln, Exec.perform]
  · simp [httpEcho, hid, hd, fprintln, Exec.perform, withAppHeaders_trace, httpLog, Exec.start,
      sprintfPortId]
  · simp [httpEcho, hid, hd, hpos, fprintln, Exec.perform, withAppHeaders_elapsed, httpLog,
      Exec.start]

/-- C9 (amended), at a delay of 200 ms with the default flags otherwise. -/
theorem echo_effect_order_witness :
    (httpEcho { defaultFlags with delay := 200 } "x" (mkRequest "GET" "/") (Exec.start [])).trace =
      [Effect.sleep 200000000, Effect.counterInc "1", Effect.write "x\n"] ∧
    (httpEcho { defaultFlags with delay := 200 } "x" (mkRequest "GET" "/")
      (Exec.start [])).elapsed = 200000000 :=
  ⟨(echo_effect_order { defaultFlags with delay := 200 } sampleExt [] "x"
      (mkRequest "GET" "/") (Exec.start []) (by decide) (by decide) (by decide)).2.1,
   (echo_effect_order { defaultFlags with delay := 200 } sampleExt [] "x"
      (mkRequest "GET" "/") (Exec.start []) (by decide) (by decide) (by decide)).2.2.1⟩

/-! ## The request counter -/

/-- C2: starting from the empty counter vector, after serving `reqs`, all of them
successful requests to "/" (served without a panic), the counter of the configured
identity is the number of requests; with a valid UTF-8 identity every request to "/" is
successful, so the counter is the number of requests to "/". More generally the counter
grows by the number of counted requests: such a request adds exactly one, any other
request leaves the whole vector unchanged, and no request lowers the counter of any
label. -/
theorem reqs_count_exact (fl : FlagSet) (ext : Externals) :
    (∀ reqs : List Request,
      (∀ r ∈ reqs, r.path = "/" ∧ (serveRequest fl ext [] r).panicked = false) →
      (serveAll fl ext [] reqs).value fl.serverId = reqs.length) ∧
    (validString fl.serverId = true → ∀ reqs : List Request, (∀ r ∈ reqs, r.path = "/") →
      (serveAll fl ext [] reqs).value fl.serverId = reqs.length) ∧
    (validString fl.serverId = true → ∀ r : Request, counted fl r = reachesEcho fl r) ∧
    (∀ (c : CounterVec) (reqs : List Request),
      (serveAll fl ext c reqs).value fl.serverId =
        c.value fl.serverId + (reqs.filter (counted fl)).length) ∧
    (∀ (c : CounterVec) (r : Request), counted fl r = true →
      (serveRequest fl ext c r).reqsCounter.value fl.serverId = c.value fl.serverId + 1) ∧
    (∀ (c : CounterVec) (r : Request), counted fl r = false →
      (serveRequest fl ext c r).reqsCounter = c) ∧
    (∀ (c : CounterVec) (r : Request) (label : String),
      c.value label ≤ (serveRequest fl ext c r).reqsCounter.value label) := by
  have hroot : ∀ r : Request, r.path = "/" → reachesEcho fl r = true := by
    intro r hp
    apply reachesEcho_catchall
    · rw [hp]; decide
    · rw [hp]; decide
    · rw [hp]; decide
  have hsucc : ∀ reqs : List Request, (∀ r ∈ reqs, counted fl r = true) →
      (serveAll fl ext [] reqs).value fl.serverId = reqs.length := by
    intro reqs h
    rw [serveAll_value]
    have hall : reqs.filter (counted fl) = reqs := by
      rw [List.filter_eq_self]
      exact h
    rw [hall]
    simp [CounterVec.value]
  refine ⟨?_, ?_, ?_, serveAll_value fl ext, ?_, ?_, ?_⟩
  · intro reqs h
    apply hsucc
    intro r hr
    obtain ⟨hp, hok⟩ := h r hr
    rw [serveRequest_panicked, hroot r hp] at hok
    simp only [Bool.true_and, Bool.not_eq_false'] at hok
    simp [counted, hroot r hp, hok]
  · intro hid reqs h
    apply hsucc
    intro r hr
    simp [counted, hroot r (h r hr), hid]
  · intro hid r
    simp [counted, hid]
  · intro c r h
    rw [serveRequest_reqsCounter, if_pos h, value_inc_self]
  · intro c r h
    rw [serveRequest_reqsCounter, h]
    simp
  · intro c r label
    rw [serveRequest_reqsCounter]
    split
    · exact value_le_inc c fl.serverId label
    · exact Nat.le_refl _

/-- C2, at three requests to "/" with different methods. -/
theorem reqs_count_exact_witness :
    (serveAll defaultFlags sampleExt []
      [mkRequest "GET" "/", mkRequest "POST" "/", mkRequest "HEAD" "/"]).value "1" = 3 :=
  (reqs_count_exact defaultFlags sampleExt).1
    [mkRequest "GET" "/", mkRequest "POST" "/", mkRequest "HEAD" "/"] (by decide)

/-- C10 (as stated, refuted): with the identity "\xff" (one byte, not valid UTF-8) a
request to the canonical path "/foo" is dispatched to the echo chain and ends in a
panic: no body is written and the counter vector stays empty. -/
theorem echo_catch_all_invalid_identity :
    cleanPath "/foo" = "/foo" ∧
    ServeMux.Handler (routes { defaultFlags with serverId := "\xff" }) (mkRequest "GET" "/foo") =
      echoChain { defaultFlags with serverId := "\xff" } ∧
    (serveRequest { defaultFlags with serverId := "\xff" } sampleExt []
      (mkRequest "GET" "/foo")).panicked = true ∧
    (serveRequest { defaultFlags with serverId := "\xff" } sampleExt []
      (mkRequest "GET" "/foo")).w.body = "" ∧
    (serveRequest { defaultFlags with serverId := "\xff" } sampleExt []
      (mkRequest "GET" "/foo")).reqsCounter = [] := by
  decide

/-- C10 (amended): when the configured identity is valid UTF-8, a request whose path is
in canonical form (cleaning leaves it unchanged) and is neither "/health" nor
"/metrics" is dispatched to the echo chain, is served without a panic, gets status 200
and the same body as a request to "/", and raises the counter of the configured
identity by one. The dispatch to the echo chain holds for every identity. -/
theorem echo_catch_all (fl : FlagSet) (ext : Externals) (c : CounterVec) (r : Request)
    (hc : cleanPath r.path = r.path) (h1 : r.path ≠ "/health") (h2 : r.path ≠ "/metrics") :
    ServeMux.Handler (routes fl) r = echoChain fl ∧
    (validString fl.serverId = true →
      (serveRequest fl ext c r).panicked = false ∧
      (serveRequest fl ext c r).w.statusCode = 200 ∧
      (serveRequest fl ext c r).w.body =
        "Port: " ++ fl.listenFlag ++ ", id: " ++ fl.serverId ++ "\n" ∧
      (serveRequest fl ext c r).w.body = (serveRequest fl ext c { r with path := "/" }).w.body ∧
      (serveRequest fl ext c r).reqsCounter = CounterVec.inc c fl.serverId ∧
      (serveRequest fl ext c r).reqsCounter.value fl.serverId = c.value fl.serverId + 1) := by
  refine ⟨Handler_routes_catchall fl r hc h1 h2, ?_⟩
  intro hid
  have hroot : cleanPath ({ r with path := "/" } : Request).path
      = ({ r with path := "/" } : Request).path := by
    show cleanPath "/" = "/"
    decide
  have hr1 : ({ r with path := "/" } : Request).path ≠ "/health" := by
    show ("/" : String) ≠ "/health"
    decide
  have hr2 : ({ r with path := "/" } : Request).path ≠ "/metrics" := by
    show ("/" : String) ≠ "/metrics"
    decide
  have hcount : (serveRequest fl ext c r).reqsCounter = CounterVec.inc c fl.serverId := by
    rw [serveRequest_reqsCounter]
    simp [counted, reachesEcho_catchall fl r hc h1 h2, hid]
  refine ⟨?_, ?_, ?_, ?_, hcount, ?_⟩
  · rw [serveRequest_panicked, hid]
    simp
  · rw [serveRequest_catchall fl ext c r hc h1 h2]
    simp [httpEcho, hid, fprintln, Exec.perform, ResponseWriter.write,
      ResponseWriter.statusCode, withAppHeaders_status, httpLog, Exec.start, ResponseWriter.new]
  · rw [serveRequest_catchall fl ext c r hc h1 h2]
    simp [httpEcho, hid, fprintln, Exec.perform, ResponseWriter.write, withAppHeaders_body,
      httpLog, Exec.start, ResponseWriter.new, sprintfPortId]
  · rw [serveRequest_catchall fl ext c r hc h1 h2, serveRequest_catchall fl ext c _ hroot hr1 hr2]
    simp [httpEcho, hid, fprintln, Exec.perform, ResponseWriter.write, withAppHeaders_body,
      httpLog, Exec.start, ResponseWriter.new]
  · rw [hcount, value_inc_self]

/-- C10 (amended), at the path "/foo" with two requests already counted. -/
theorem echo_catch_all_witness :
    cleanPath "/foo" = "/foo" ∧
    (serveRequest defaultFlags sampleExt [("1", 2)] (mkRequest "GET" "/foo")).w.body =
      "Port: :5678, id: 1\n" ∧
    (serveRequest defaultFlags sampleExt [("1", 2)] (mkRequest "GET" "/foo")).reqsCounter.value "1"
      = 3 :=
  ⟨by decide,
   ((echo_catch_all defaultFlags sampleExt [("1", 2)] (mkRequest "GET" "/foo")
      (by decide) (by decide) (by decide)).2 (by decide)).2.2.1,
   ((echo_catch_all defaultFlags sampleExt [("1", 2)] (mkRequest "GET" "/foo")
      (by decide) (by decide) (by decide)).2 (by decide)).2.2.2.2.2⟩

/-! ## The route table -/

/-- C7 (as stated, refuted): the chain registered on "/health" is not access logging
around header injection. -/
theorem health_route_not_logged :
    ((routes defaultFlags).registered "/health").map Handler.wrappers ≠
      some [Wrapper.accessLogging, Wrapper.headerInjection] := by
  decide

/-- C7 (amended): "/" is registered as access logging around header injection around
the echo closure; "/health" is registered as header injection alone around the health
closure, so a /health request leaves no access-log record; "/metrics" is registered
with no wrapper; and these three are the registrations a run of `main` makes when it
gets past the flag checks. -/
theorem route_table_wrappers (fl : FlagSet) (ext : Externals) (env : Env) (c : CounterVec)
    (r : Request) :
    ((routes fl).registered "/").map Handler.wrappers =
      some [Wrapper.accessLogging, Wrapper.headerInjection] ∧
    ((routes fl).registered "/").map Handler.terminal =
      some (Handler.httpEcho ("Port: " ++ fl.listenFlag ++ ", id: " ++ fl.serverId)) ∧
    ((routes fl).registered "/health").map Handler.wrappers = some [Wrapper.headerInjection] ∧
    ((routes fl).registered "/health").map Handler.terminal = some Handler.httpHealth ∧
    (routes fl).registered "/metrics" = some Handler.promhttpHandler ∧
    Handler.promhttpHandler.wrappers = [] ∧
    (routes fl).map (·.1) = ["/", "/health", "/metrics"] ∧
    (∀ eff ∈ (serveRequest fl ext c { r with path := "/health" }).trace,
      eff.isAccessLog = false) ∧
    (fl.versionFlag = false → fl.args = [] →
      registrations (main ext fl env).foreground = routes fl) := by
  refine ⟨rfl, rfl, rfl, rfl, rfl, rfl, rfl, ?_, ?_⟩
  · rw [serveRequest_health fl ext c _ rfl]
    intro eff h
    simp only [httpHealth, fprintln, Exec.perform, withAppHeaders_trace, Exec.start,
      List.nil_append, List.mem_append, List.mem_map, List.mem_singleton] at h
    rcases h with ⟨kv, _, rfl⟩ | rfl <;> rfl
  · intro hv ha
    simp only [main, hv, ha, List.length_nil, gt_iff_lt, Nat.lt_irrefl, if_false,
      Bool.false_eq_true]
    cases env.serveErr <;> cases env.interrupt <;> cases env.shutdownErr <;> rfl

/-- C7, at the default flags with an interrupt and a clean shutdown. -/
theorem route_table_wrappers_witness :
    registrations (main sampleExt defaultFlags
      { serveErr := none, interrupt := true, shutdownErr := none }).foreground =
      routes defaultFlags :=
  (route_table_wrappers defaultFlags sampleExt
    { serveErr := none, interrupt := true, shutdownErr := none } [] (mkRequest "GET" "/")).2.2.2.2.2.2.2.2
    rfl rfl

/-! ## Startup and shutdown -/

/-- C5 (as stated, refuted): the command line `-version extra` carries a positional
argument and the process exits with status 0. -/
theorem positional_with_version_exits_0 :
    ({ defaultFlags with versionFlag := true, args := ["extra"] } : FlagSet).args ≠ [] ∧
    (main sampleExt { defaultFlags with versionFlag := true, args := ["extra"] }
      { serveErr := none, interrupt := true, shutdownErr := none }).exitCode = some 0 ∧
    (runMain sampleExt
      (ParseOutcome.returned { defaultFlags with versionFlag := true, args := ["extra"] })
      { serveErr := none, interrupt := true, shutdownErr := none }).exitCode = some 0 := by
  decide

/-- C5 (amended): the three ways a command line with a positional argument can go.
When `flag.Parse()` rejects the command line, the process ends inside `flag.Parse()`
with the status the flag package gives. When `flag.Parse()` returns, `-version` is not
set and at least one positional argument is left, the run is exactly: print
"Too many arguments!" to the error stream, exit with status 127. When `flag.Parse()`
returns and `-version` is set, the process prints the version and exits with status 0.
In none of the three does any step construct or start the server. -/
theorem positional_args_exit_127 (ext : Externals) (fl : FlagSet) (env : Env) (code : Nat) :
    ((runMain ext (ParseOutcome.exited code) env).exitCode = some code ∧
      (runMain ext (ParseOutcome.exited code) env).foreground = [MainEvent.exit code] ∧
      (runMain ext (ParseOutcome.exited code) env).background = []) ∧
    (fl.versionFlag = false → fl.args ≠ [] →
      (runMain ext (ParseOutcome.returned fl) env).exitCode = some 127 ∧
      (runMain ext (ParseOutcome.returned fl) env).foreground =
        [MainEvent.fprintlnStderr "Too many arguments!", MainEvent.exit 127] ∧
      (runMain ext (ParseOutcome.returned fl) env).background = [] ∧
      (runMain ext (ParseOutcome.returned fl) env).foreground.all
        (fun ev => !ev.isServerStep) = true) ∧
    (fl.versionFlag = true →
      (runMain ext (ParseOutcome.returned fl) env).exitCode = some 0 ∧
      (runMain ext (ParseOutcome.returned fl) env).foreground =
        [MainEvent.fprintlnStderr ext.humanVersion, MainEvent.exit 0] ∧
      (runMain ext (ParseOutcome.returned fl) env).background = []) := by
  refine ⟨⟨rfl, rfl, rfl⟩, ?_, ?_⟩
  · intro hv ha
    have hlen : fl.args.length > 0 := List.length_pos.mpr ha
    simp [runMain, main, hv, hlen, MainEvent.isServerStep]
  · intro hv
    simp [runMain, main, hv]

/-- C5 (amended), at the command line `extra`. -/
theorem positional_args_exit_127_witness :
    (runMain sampleExt (ParseOutcome.returned { defaultFlags with args := ["extra"] })
      { serveErr := none, interrupt := false, shutdownErr := none }).exitCode = some 127 :=
  ((positional_args_exit_127 sampleExt { defaultFlags with args := ["extra"] }
    { serveErr := none, interrupt := false, shutdownErr := none } 2).2.1 rfl (by decide)).1

/-- C4 (as stated, refuted): when `server.Shutdown` returns the deadline-exceeded
error, the exit status is 1, not 2. -/
theorem shutdown_deadline_exit_not_2 :
    (main sampleExt defaultFlags
      { serveErr := none, interrupt := true, shutdownErr := some deadlineExceeded }).exitCode
      ≠ some 2 := by
  decide

/-- C4 (amended): past the flag checks, with the server listening and an interrupt
delivered, when `server.Shutdown` returns an error (the deadline-exceeded error
included) the main goroutine ends with `log.Fatalf` of
"[ERR] failed to shutdown server: " and the error, the exit status is 1, and
`os.Exit(2)` is not reached. -/
theorem shutdown_error_exits_1 (ext : Externals) (fl : FlagSet) (env : Env) (err : String)
    (hv : fl.versionFlag = false) (ha : fl.args = []) (hs : env.serveErr = none)
    (hi : env.interrupt = true) (he : env.shutdownErr = some err) :
    (main ext fl env).exitCode = some 1 ∧
    (main ext fl env).foreground.filter MainEvent.isShutdown =
      [MainEvent.shutdown (5 * Second)] ∧
    (∃ before, (main ext fl env).foreground = before ++
      [MainEvent.shutdown (5 * Second),
       MainEvent.logFatalf ("[ERR] failed to shutdown server: " ++ err), MainEvent.exit 1]) ∧
    MainEvent.exit 2 ∉ (main ext fl env).foreground := by
  have hd : durationMul 5 Second = 5 * Second := by decide
  refine ⟨?_, ?_, ?_, ?_⟩
  · simp [main, hv, ha, hs, hi, he]
  · simp [main, hv, ha, hs, hi, he, hd, routes, List.filter, MainEvent.isShutdown]
  · refine ⟨[MainEvent.newServeMux] ++ (routes fl).map (fun e => MainEvent.handle e.1 e.2) ++
      [MainEvent.newServer fl.listenFlag, MainEvent.goListenAndServe, MainEvent.signalNotify] ++
      [MainEvent.logPrintf "[INFO] received interrupt, shutting down...",
       MainEvent.contextWithTimeout (5 * Second)], ?_⟩
    simp [main, hv, ha, hs, hi, he, hd]
  · simp [main, hv, ha, hs, hi, he, routes]

/-- C4, at the default flags and the deadline-exceeded error. -/
theorem shutdown_error_exits_1_witness :
    (main sampleExt defaultFlags
      { serveErr := none, interrupt := true, shutdownErr := some deadlineExceeded }).exitCode
      = some 1 :=
  (shutdown_error_exits_1 sampleExt defaultFlags
    { serveErr := none, interrupt := true, shutdownErr := some deadlineExceeded }
    deadlineExceeded rfl rfl rfl rfl rfl).1

/-- C6: past the flag checks, with the server listening, an interrupt delivered and
`server.Shutdown` returning no error, the exit status is 2 (so not 0), the last step of
the main goroutine is `os.Exit(2)`, and `server.Shutdown` is called exactly once, with
a deadline of 5 seconds. -/
theorem interrupt_drained_exits_2 (ext : Externals) (fl : FlagSet) (env : Env)
    (hv : fl.versionFlag = false) (ha : fl.args = []) (hs : env.serveErr = none)
    (hi : env.interrupt = true) (he : env.shutdownErr = none) :
    (main ext fl env).exitCode = some 2 ∧
    (main ext fl env).exitCode ≠ some 0 ∧
    (main ext fl env).foreground.getLast? = some (MainEvent.exit 2) ∧
    (main ext fl env).foreground.filter MainEvent.isShutdown =
      [MainEvent.shutdown 5000000000] ∧
    5 * Second = 5000000000 := by
  have hd : durationMul 5 Second = 5000000000 := by decide
  refine ⟨?_, ?_, ?_, ?_, by decide⟩
  · simp [main, hv, ha, hs, hi, he]
  · simp [main, hv, ha, hs, hi, he]
  · simp [main, hv, ha, hs, hi, he, routes]
  · simp [main, hv, ha, hs, hi, he, hd, routes, List.filter, MainEvent.isShutdown]

/-- C6, at the default flags. -/
theorem interrupt_drained_exits_2_witness :
    (main sampleExt defaultFlags
      { serveErr := none, interrupt := true, shutdownErr := none }).exitCode = some 2 :=
  (interrupt_drained_exits_2 sampleExt defaultFlags
    { serveErr := none, interrupt := true, shutdownErr := none } rfl rfl rfl rfl rfl).1

end HttpEcho
